import Mathlib

/-!
Verification of the match-statistics aggregation pipeline in `src/app.py`.

The script loads a CSV of football matches, parses and sorts by date
(lines 10-14), renames columns replacing spaces with underscores (line 17),
validates that 16 required columns are present (lines 20-28), strips the
trailing percent signs from the three possession columns and parses them as
numbers (lines 31-33), and then, for every distinct category and every
distinct team, filters and sums rows to build a metrics record of total
attempts, on-target percentage, goals and assists (lines 36-55).

Modelling choices:
* A table is a `List Row`; a row carries the columns the aggregation and
  preprocessing read.  Numeric cells are rationals (`ℚ`): the CSV holds
  integer counts, and `ℚ` makes the sums and the ratio exact.
* `round(x, 2)` in Python rounds half-to-even at two decimals; `round2`
  models it on the exact rational value.
* numpy division of a zero numerator by a zero denominator yields a
  non-finite float (`nan`, or `±inf` for a nonzero numerator) rather than
  raising; the `on_target` field is therefore an `Option ℚ`, with `none`
  standing for that non-finite result.
* The model starts after the date parse and sort of lines 10-14: that step
  only reorders rows, and the aggregation is proved permutation-invariant
  below.
-/

/-- A parsed match row, after the possession preprocessing of lines 31-33.
Field names follow the renamed CSV columns (line 17). -/
structure Row where
  team1 : String
  team2 : String
  date : String
  hour : String
  category : String
  possession_team1 : ℚ
  possession_team2 : ℚ
  possession_in_contest : ℚ
  number_of_goals_team1 : ℚ
  number_of_goals_team2 : ℚ
  total_attempts_team1 : ℚ
  total_attempts_team2 : ℚ
  on_target_attempts_team1 : ℚ
  on_target_attempts_team2 : ℚ
  assists_team1 : ℚ
  assists_team2 : ℚ
deriving DecidableEq

/-- A match row as read from the CSV, before the possession preprocessing:
the three possession columns are still strings such as "42%". -/
structure RawRow where
  team1 : String
  team2 : String
  date : String
  hour : String
  category : String
  possession_team1 : String
  possession_team2 : String
  possession_in_contest : String
  number_of_goals_team1 : ℚ
  number_of_goals_team2 : ℚ
  total_attempts_team1 : ℚ
  total_attempts_team2 : ℚ
  on_target_attempts_team1 : ℚ
  on_target_attempts_team2 : ℚ
  assists_team1 : ℚ
  assists_team2 : ℚ
deriving DecidableEq

/-- First-occurrence deduplication, the behaviour of pandas `.unique()`
(lines 36-37). -/
def unique : List String → List String
  | [] => []
  | x :: xs => x :: unique (xs.filter (fun y => !(y == x)))
termination_by l => l.length
decreasing_by
  simp only [List.length_cons]
  exact Nat.lt_succ_of_le (List.length_filter_le _ _)

/-- Line 36: `teams = pd.concat([df['team1'], df['team2']]).unique()`. -/
def teams (df : List Row) : List String :=
  unique (df.map Row.team1 ++ df.map Row.team2)

/-- Line 37: `categories = df['category'].unique()`. -/
def categories (df : List Row) : List String :=
  unique (df.map Row.category)

/-- Line 44: `team_data = df[(df['team1'] == team) | (df['team2'] == team)]`. -/
def teamData (df : List Row) (team : String) : List Row :=
  df.filter (fun r => r.team1 == team || r.team2 == team)

/-- Line 45: `category_data = team_data[team_data['category'] == category]`. -/
def categoryData (df : List Row) (team category : String) : List Row :=
  (teamData df team).filter (fun r => r.category == category)

/-- pandas `.sum()` over one column of a row selection. -/
def sumColumn (f : Row → ℚ) (rows : List Row) : ℚ :=
  (rows.map f).sum

/-- `category_data['total_attempts_team1'].sum() + category_data['total_attempts_team2'].sum()`
(lines 49 and 51). -/
def attemptsSum (df : List Row) (team category : String) : ℚ :=
  sumColumn Row.total_attempts_team1 (categoryData df team category)
    + sumColumn Row.total_attempts_team2 (categoryData df team category)

/-- `category_data['on_target_attempts_team1'].sum() + category_data['on_target_attempts_team2'].sum()`
(line 50). -/
def onTargetSum (df : List Row) (team category : String) : ℚ :=
  sumColumn Row.on_target_attempts_team1 (categoryData df team category)
    + sumColumn Row.on_target_attempts_team2 (categoryData df team category)

/-- `category_data['number_of_goals_team1'].sum() + category_data['number_of_goals_team2'].sum()`
(line 52). -/
def goalsSum (df : List Row) (team category : String) : ℚ :=
  sumColumn Row.number_of_goals_team1 (categoryData df team category)
    + sumColumn Row.number_of_goals_team2 (categoryData df team category)

/-- `category_data['assists_team1'].sum() + category_data['assists_team2'].sum()`
(line 53). -/
def assistsSum (df : List Row) (team category : String) : ℚ :=
  sumColumn Row.assists_team1 (categoryData df team category)
    + sumColumn Row.assists_team2 (categoryData df team category)

/-- Round half-to-even to an integer, the tie-breaking rule of Python's
built-in `round`. -/
def roundHalfEven (x : ℚ) : ℤ :=
  if x - ⌊x⌋ < 1/2 then ⌊x⌋
  else if 1/2 < x - ⌊x⌋ then ⌊x⌋ + 1
  else if ⌊x⌋ % 2 = 0 then ⌊x⌋ else ⌊x⌋ + 1

/-- Python `round(x, 2)`: round half-to-even at two decimal places,
modelled on the exact rational value. -/
def round2 (x : ℚ) : ℚ :=
  (roundHalfEven (x * 100) : ℚ) / 100

/-- One row of a per-category metrics DataFrame (line 55):
`['Team', 'Total Attempts', 'On-Target %', 'Goals', 'Assists']`.
`on_target = none` models the non-finite float numpy returns when the
division of lines 50-51 has a zero denominator. -/
structure MetricsRecord where
  team : String
  attempts : ℚ
  on_target : Option ℚ
  goals : ℚ
  assists : ℚ
deriving DecidableEq

/-- Lines 44-54: the metrics record computed for one (team, category) pair. -/
def teamCategoryMetrics (df : List Row) (team category : String) : MetricsRecord :=
  if (categoryData df team category).isEmpty then
    { team := team, attempts := 0, on_target := some 0, goals := 0, assists := 0 }
  else
    { team := team
      attempts := round2 (attemptsSum df team category)
      on_target :=
        if attemptsSum df team category = 0 then none
        else some (round2 (onTargetSum df team category / attemptsSum df team category * 100))
      goals := round2 (goalsSum df team category)
      assists := round2 (assistsSum df team category) }

/-- Lines 42-55: the list of per-team records for one category
(the DataFrame `metrics[category]`). -/
def metricsFor (df : List Row) (category : String) : List MetricsRecord :=
  (teams df).map (fun team => teamCategoryMetrics df team category)

/-- Lines 40-55: the whole `metrics` dictionary, as an association list
from category to its per-team records, in loop order. -/
def metrics (df : List Row) : List (String × List MetricsRecord) :=
  (categories df).map (fun c => (c, metricsFor df c))

/-- Python `str.rstrip('%')`: remove every trailing '%' character
(lines 31-33). -/
def rstripPct (s : String) : String :=
  String.mk ((s.toList.reverse.dropWhile (fun c => c == '%')).reverse)

/-- Value of a digit string read left to right. -/
def digitsToNat (l : List Char) : ℕ :=
  l.foldl (fun n c => 10 * n + (c.toNat - 48)) 0

/-- Parse an unsigned decimal literal: digits, optionally followed by a dot
and digits, at least one digit overall. -/
def parseUnsigned (l : List Char) : Option ℚ :=
  let ip := l.takeWhile Char.isDigit
  match l.dropWhile Char.isDigit with
  | [] => if ip.isEmpty then none else some (digitsToNat ip)
  | '.' :: fp =>
      if fp.all Char.isDigit && !(ip.isEmpty && fp.isEmpty) then
        some ((digitsToNat ip : ℚ) + (digitsToNat fp : ℚ) / (10 : ℚ) ^ fp.length)
      else none
  | _ => none

/-- Python `float(s)` on plain decimal literals with an optional sign, the
form possession cells take; `none` models the `ValueError` that
`.astype(float)` raises on anything that does not parse. -/
def parseFloat (s : String) : Option ℚ :=
  match s.toList with
  | '-' :: rest => (parseUnsigned rest).map (fun q => -q)
  | '+' :: rest => parseUnsigned rest
  | l => parseUnsigned l

/-- Lines 31-33 applied to one cell:
`.str.rstrip('%').astype(float)`.  On failure the offending cell is
reported. -/
def parsePossession (s : String) : Except String ℚ :=
  match parseFloat (rstripPct s) with
  | some q => Except.ok q
  | none => Except.error s

/-- Lines 31-33 applied to one row: parse the three possession cells,
leaving every other column untouched.  (pandas converts column by column,
so when several cells are bad it reports one of a different order; which
bad cell is named differs, success and results do not.) -/
def transformRow (r : RawRow) : Except String Row :=
  match parsePossession r.possession_team1 with
  | Except.error e => Except.error e
  | Except.ok p1 =>
    match parsePossession r.possession_team2 with
    | Except.error e => Except.error e
    | Except.ok p2 =>
      match parsePossession r.possession_in_contest with
      | Except.error e => Except.error e
      | Except.ok pc =>
        Except.ok
          { team1 := r.team1, team2 := r.team2, date := r.date, hour := r.hour,
            category := r.category,
            possession_team1 := p1, possession_team2 := p2, possession_in_contest := pc,
            number_of_goals_team1 := r.number_of_goals_team1,
            number_of_goals_team2 := r.number_of_goals_team2,
            total_attempts_team1 := r.total_attempts_team1,
            total_attempts_team2 := r.total_attempts_team2,
            on_target_attempts_team1 := r.on_target_attempts_team1,
            on_target_attempts_team2 := r.on_target_attempts_team2,
            assists_team1 := r.assists_team1, assists_team2 := r.assists_team2 }

/-- Lines 31-33 over the whole table. -/
def transformTable : List RawRow → Except String (List Row)
  | [] => Except.ok []
  | r :: rs =>
      match transformRow r with
      | Except.error e => Except.error e
      | Except.ok r2 =>
        match transformTable rs with
        | Except.error e => Except.error e
        | Except.ok rs2 => Except.ok (r2 :: rs2)

/-- Lines 20-25: the 16 required columns. -/
def required_columns : List String :=
  ["possession_team1", "possession_team2", "possession_in_contest",
   "number_of_goals_team1", "number_of_goals_team2", "total_attempts_team1",
   "total_attempts_team2", "on_target_attempts_team1", "on_target_attempts_team2",
   "team1", "team2", "date", "hour", "category", "assists_team1", "assists_team2"]

/-- Line 17: `df.columns.str.replace(" ", "_")` on one column name. -/
def renameColumn (s : String) : String :=
  String.mk (s.toList.map (fun c => if c = ' ' then '_' else c))

/-- Line 26: `[col for col in required_columns if col not in df.columns]`. -/
def missingColumns (cols : List String) : List String :=
  required_columns.filter (fun c => !(cols.contains c))

/-- Lines 27-28: `if missing_columns: raise ValueError(...)`; the error
value is the list carried by the message. -/
def validate (cols : List String) : Except (List String) Unit :=
  if (missingColumns cols).isEmpty then Except.ok ()
  else Except.error (missingColumns cols)

/-- A loaded CSV: its (pre-rename) column names and its rows. -/
structure RawTable where
  columns : List String
  rows : List RawRow

inductive PipelineError where
  /-- The `ValueError` of line 28, carrying the missing-column list. -/
  | missingColumns (missing : List String)
  /-- The error `.astype(float)` raises on a bad possession cell
  (lines 31-33). -/
  | badPossession (cell : String)
deriving DecidableEq

/-- The script's stages in order (lines 17-55): rename columns, validate,
transform the possession columns, aggregate.  The date parse and sort of
lines 10-14 precede this and only reorder rows. -/
def pipeline (t : RawTable) : Except PipelineError (List (String × List MetricsRecord)) :=
  match validate (t.columns.map renameColumn) with
  | Except.error m => Except.error (PipelineError.missingColumns m)
  | Except.ok _ =>
    match transformTable t.rows with
    | Except.error s => Except.error (PipelineError.badPossession s)
    | Except.ok rows => Except.ok (metrics rows)

/-- Cost model for the loop of lines 41-55: for each (category, team) pair
the filter of line 44 scans the whole table and the filter of line 45 scans
the selected team rows. -/
def metricsWork (df : List Row) : ℕ :=
  ((categories df).map
    (fun _ => ((teams df).map (fun team => df.length + (teamData df team).length)).sum)).sum

/-- The spec's row selection for a (team, category) pair: rows of that
category involving that team as `team1` or `team2`. -/
def matchesTeamCategory (team category : String) (r : Row) : Prop :=
  r.category = category ∧ (r.team1 = team ∨ r.team2 = team)

instance (team category : String) (r : Row) :
    Decidable (matchesTeamCategory team category r) :=
  inferInstanceAs (Decidable (r.category = category ∧ (r.team1 = team ∨ r.team2 = team)))

/-- The spec-side selection, as a single filter over the table. -/
def specMatchRows (df : List Row) (team category : String) : List Row :=
  df.filter (fun r => decide (matchesTeamCategory team category r))

theorem categoryData_eq_specMatchRows (df : List Row) (team category : String) :
    categoryData df team category = specMatchRows df team category := by
  unfold categoryData teamData specMatchRows
  rw [List.filter_filter]
  apply List.filter_congr
  intro r _
  by_cases h1 : r.category = category <;> by_cases h2 : r.team1 = team <;>
    by_cases h3 : r.team2 = team <;> simp [matchesTeamCategory, h1, h2, h3]

theorem mem_unique (a : String) (l : List String) : a ∈ unique l ↔ a ∈ l := by
  induction l using unique.induct with
  | case1 => simp [unique]
  | case2 x xs ih =>
      rw [unique]
      by_cases hax : a = x
      · subst hax; simp
      · simp [List.mem_cons, ih, List.mem_filter, hax]

theorem nodup_unique (l : List String) : (unique l).Nodup := by
  induction l using unique.induct with
  | case1 => simp [unique]
  | case2 x xs ih =>
      rw [unique, List.nodup_cons]
      refine ⟨?_, ih⟩
      intro hmem
      rw [mem_unique] at hmem
      have := List.of_mem_filter hmem
      simp at this

theorem nodup_categories (df : List Row) : (categories df).Nodup :=
  nodup_unique _

theorem category_mem_categories {df : List Row} {r : Row} (h : r ∈ df) :
    r.category ∈ categories df := by
  rw [categories, mem_unique]
  exact List.mem_map_of_mem _ h

theorem mem_of_mem_teamData {df : List Row} {team : String} {r : Row}
    (h : r ∈ teamData df team) : r ∈ df :=
  List.mem_of_mem_filter h

theorem mem_of_mem_categoryData {df : List Row} {team category : String} {r : Row}
    (h : r ∈ categoryData df team category) : r ∈ df :=
  mem_of_mem_teamData (List.mem_of_mem_filter h)

theorem sum_map_zero {α : Type} (l : List α) : (l.map (fun _ => (0:ℚ))).sum = 0 := by
  induction l with
  | nil => simp
  | cons a l ih => simp [ih]

theorem sum_map_add_distrib {α : Type} (f g : α → ℚ) (l : List α) :
    (l.map (fun x => f x + g x)).sum = (l.map f).sum + (l.map g).sum := by
  induction l with
  | nil => simp
  | cons a l ih => simp only [List.map_cons, List.sum_cons, ih]; ring

theorem sumColumn_nonneg (f : Row → ℚ) (l : List Row) (h : ∀ r ∈ l, 0 ≤ f r) :
    0 ≤ sumColumn f l := by
  apply List.sum_nonneg
  intro x hx
  obtain ⟨r, hr, rfl⟩ := List.mem_map.mp hx
  exact h r hr

theorem sumColumn_le (f g : Row → ℚ) (l : List Row) (h : ∀ r ∈ l, f r ≤ g r) :
    sumColumn f l ≤ sumColumn g l := by
  induction l with
  | nil => simp [sumColumn]
  | cons a l ih =>
      simp only [sumColumn, List.map_cons, List.sum_cons]
      exact add_le_add (h a (by simp))
        (ih (fun r hr => h r (by simp [hr])))

theorem sumColumn_pos (f : Row → ℚ) (l : List Row) (hne : l ≠ [])
    (h : ∀ r ∈ l, 0 < f r) : 0 < sumColumn f l := by
  cases l with
  | nil => exact absurd rfl hne
  | cons a t =>
      simp only [sumColumn, List.map_cons, List.sum_cons]
      exact add_pos_of_pos_of_nonneg (h a (by simp))
        (sumColumn_nonneg f t (fun r hr => le_of_lt (h r (by simp [hr]))))

theorem sumColumn_perm (f : Row → ℚ) {l1 l2 : List Row} (h : l1.Perm l2) :
    sumColumn f l1 = sumColumn f l2 :=
  (h.map f).sum_eq

theorem sum_map_ite_not_mem (a : String) (x : ℚ) (cats : List String) (h : a ∉ cats) :
    (cats.map (fun c => if a == c then x else 0)).sum = 0 := by
  induction cats with
  | nil => simp
  | cons c cs ih =>
      have hac : ¬ a = c := fun hh => h (by simp [hh])
      have : (a == c) = false := by simp [hac]
      simp only [List.map_cons, List.sum_cons, this, if_false, Bool.false_eq_true]
      rw [ih (fun hh => h (by simp [hh]))]
      simp

theorem sum_map_ite_mem (a : String) (x : ℚ) (cats : List String)
    (hnd : cats.Nodup) (hmem : a ∈ cats) :
    (cats.map (fun c => if a == c then x else 0)).sum = x := by
  induction cats with
  | nil => simp at hmem
  | cons c cs ih =>
      rw [List.nodup_cons] at hnd
      by_cases hac : a = c
      · subst hac
        simp only [List.map_cons, List.sum_cons, beq_self_eq_true, if_true]
        rw [sum_map_ite_not_mem a x cs hnd.1]
        simp
      · have hb : (a == c) = false := by simp [hac]
        have hmem2 : a ∈ cs := (List.mem_cons.mp hmem).resolve_left hac
        simp only [List.map_cons, List.sum_cons, hb, Bool.false_eq_true, if_false]
        rw [ih hnd.2 hmem2]
        simp

theorem length_filter_beq_of_nodup (a : String) (cats : List String)
    (hnd : cats.Nodup) (h : a ∈ cats) :
    (cats.filter (fun c => a == c)).length = 1 := by
  induction cats with
  | nil => simp at h
  | cons c cs ih =>
      rw [List.nodup_cons] at hnd
      by_cases hac : a = c
      · subst hac
        have hout : cs.filter (fun c2 => a == c2) = [] := by
          apply List.filter_eq_nil_iff.mpr
          intro b hb
          simp only [beq_iff_eq]
          intro hh
          exact hnd.1 (hh ▸ hb)
        simp [List.filter_cons, hout]
      · have hb : (a == c) = false := by simp [hac]
        have hmem2 : a ∈ cs := (List.mem_cons.mp h).resolve_left hac
        simp [List.filter_cons, hb, ih hnd.2 hmem2]

theorem sum_map_filter_partition (f : Row → ℚ) (rows : List Row) (cats : List String)
    (hnd : cats.Nodup) (hcov : ∀ r ∈ rows, r.category ∈ cats) :
    (cats.map (fun c => sumColumn f (rows.filter (fun s => s.category == c)))).sum
      = sumColumn f rows := by
  induction rows with
  | nil =>
      simp only [List.filter_nil, sumColumn, List.map_nil, List.sum_nil]
      exact sum_map_zero cats
  | cons r rest ih =>
      have hcovr : r.category ∈ cats := hcov r (by simp)
      have hcovrest : ∀ s ∈ rest, s.category ∈ cats := fun s hs => hcov s (by simp [hs])
      have step : ∀ c, sumColumn f ((r :: rest).filter (fun s => s.category == c))
          = (if r.category == c then f r else 0)
            + sumColumn f (rest.filter (fun s => s.category == c)) := by
        intro c
        by_cases h : r.category = c
        · simp [sumColumn, List.filter_cons, h]
        · have hb : (r.category == c) = false := by simp [h]
          simp [sumColumn, List.filter_cons, hb]
      calc (cats.map (fun c => sumColumn f ((r :: rest).filter (fun s => s.category == c)))).sum
          = (cats.map (fun c => (if r.category == c then f r else 0)
              + sumColumn f (rest.filter (fun s => s.category == c)))).sum := by
            simp only [step]
        _ = (cats.map (fun c => if r.category == c then f r else 0)).sum
              + (cats.map (fun c => sumColumn f (rest.filter (fun s => s.category == c)))).sum :=
            sum_map_add_distrib _ _ cats
        _ = f r + sumColumn f rest := by
            rw [sum_map_ite_mem r.category (f r) cats hnd hcovr, ih hcovrest]
        _ = sumColumn f (r :: rest) := by simp [sumColumn]

theorem floor_le_roundHalfEven (x : ℚ) : ⌊x⌋ ≤ roundHalfEven x := by
  unfold roundHalfEven
  split_ifs <;> omega

theorem roundHalfEven_le_ceil (x : ℚ) : roundHalfEven x ≤ ⌈x⌉ := by
  have key : (⌊x⌋ : ℚ) < x → ⌊x⌋ + 1 ≤ ⌈x⌉ := by
    intro hx
    have h1 : x ≤ (⌈x⌉ : ℚ) := Int.le_ceil x
    have h2 : (⌊x⌋ : ℚ) < (⌈x⌉ : ℚ) := lt_of_lt_of_le hx h1
    have h3 : ⌊x⌋ < ⌈x⌉ := by exact_mod_cast h2
    omega
  unfold roundHalfEven
  split_ifs with h1 h2 h3
  · exact Int.floor_le_ceil x
  · exact key (by linarith)
  · exact Int.floor_le_ceil x
  · have hge : ¬ x - ⌊x⌋ < 1/2 := h1
    exact key (by push_neg at hge; linarith)

theorem round2_nonneg (x : ℚ) (h : 0 ≤ x) : 0 ≤ round2 x := by
  unfold round2
  apply div_nonneg _ (by norm_num)
  have h0 : (0:ℤ) ≤ ⌊x * 100⌋ := Int.floor_nonneg.mpr (by positivity)
  have h1 := floor_le_roundHalfEven (x * 100)
  exact_mod_cast le_trans h0 h1

theorem round2_le_hundred (x : ℚ) (h : x ≤ 100) : round2 x ≤ 100 := by
  unfold round2
  rw [div_le_iff₀ (by norm_num : (0:ℚ) < 100)]
  have h1 : roundHalfEven (x * 100) ≤ ⌈x * 100⌉ := roundHalfEven_le_ceil _
  have h2 : ⌈x * 100⌉ ≤ (10000:ℤ) := by
    have hx : x * 100 ≤ ((10000:ℤ) : ℚ) := by push_cast; linarith
    calc ⌈x * 100⌉ ≤ ⌈((10000:ℤ) : ℚ)⌉ := Int.ceil_le_ceil hx
      _ = 10000 := Int.ceil_intCast 10000
  have h3 : roundHalfEven (x * 100) ≤ 10000 := le_trans h1 h2
  calc ((roundHalfEven (x * 100) : ℤ) : ℚ) ≤ ((10000:ℤ) : ℚ) := by exact_mod_cast h3
    _ = 100 * 100 := by norm_num

/-- Builder for concrete rows used in witnesses and counterexamples:
teams, category, then attempts, on-target attempts, goals and assists for
team1 and team2. -/
def mkRow (t1 t2 c : String) (att1 att2 ont1 ont2 g1 g2 a1 a2 : ℚ) : Row :=
  { team1 := t1, team2 := t2, date := "d", hour := "h", category := c,
    possession_team1 := 0, possession_team2 := 0, possession_in_contest := 0,
    number_of_goals_team1 := g1, number_of_goals_team2 := g2,
    total_attempts_team1 := att1, total_attempts_team2 := att2,
    on_target_attempts_team1 := ont1, on_target_attempts_team2 := ont2,
    assists_team1 := a1, assists_team2 := a2 }

/-- A match with 3 attempts, 1 on target: its exact on-target percentage is
100/3, which the code rounds to 33.33. -/
def rowC1 : Row := mkRow "A" "B" "g" 3 0 1 0 2 1 1 0

/-- **C1** (corrected): for a (team, category) pair with at least one
matching row — a row of that category whose `team1` or `team2` is that
team — and nonzero summed attempts, the record holds the claimed sums and
ratio, each rounded half-to-even to two decimals (the rounding is the part
the claim omits). -/
theorem C1_aggregation_formula (df : List Row) (team category : String)
    (hne : specMatchRows df team category ≠ [])
    (hatt : sumColumn Row.total_attempts_team1 (specMatchRows df team category)
        + sumColumn Row.total_attempts_team2 (specMatchRows df team category) ≠ 0) :
    teamCategoryMetrics df team category =
      { team := team
        attempts := round2 (sumColumn Row.total_attempts_team1 (specMatchRows df team category)
          + sumColumn Row.total_attempts_team2 (specMatchRows df team category))
        on_target := some (round2 (100 *
          (sumColumn Row.on_target_attempts_team1 (specMatchRows df team category)
            + sumColumn Row.on_target_attempts_team2 (specMatchRows df team category)) /
          (sumColumn Row.total_attempts_team1 (specMatchRows df team category)
            + sumColumn Row.total_attempts_team2 (specMatchRows df team category))))
        goals := round2 (sumColumn Row.number_of_goals_team1 (specMatchRows df team category)
          + sumColumn Row.number_of_goals_team2 (specMatchRows df team category))
        assists := round2 (sumColumn Row.assists_team1 (specMatchRows df team category)
          + sumColumn Row.assists_team2 (specMatchRows df team category)) } := by
  have hspec := categoryData_eq_specMatchRows df team category
  have hemp : (categoryData df team category).isEmpty = false := by
    rw [hspec]
    cases hc : specMatchRows df team category with
    | nil => exact absurd hc hne
    | cons a t => rfl
  have hatt2 : attemptsSum df team category ≠ 0 := by
    unfold attemptsSum
    rw [hspec]
    exact hatt
  unfold teamCategoryMetrics
  rw [hemp]
  simp only [Bool.false_eq_true, if_false]
  rw [if_neg hatt2]
  unfold attemptsSum onTargetSum goalsSum assistsSum
  rw [hspec]
  have harg : (sumColumn Row.on_target_attempts_team1 (specMatchRows df team category)
        + sumColumn Row.on_target_attempts_team2 (specMatchRows df team category)) /
        (sumColumn Row.total_attempts_team1 (specMatchRows df team category)
        + sumColumn Row.total_attempts_team2 (specMatchRows df team category)) * 100
      = 100 * (sumColumn Row.on_target_attempts_team1 (specMatchRows df team category)
        + sumColumn Row.on_target_attempts_team2 (specMatchRows df team category)) /
        (sumColumn Row.total_attempts_team1 (specMatchRows df team category)
        + sumColumn Row.total_attempts_team2 (specMatchRows df team category)) := by
    ring
  rw [harg]

/-- **C1** witness: the amended statement applied to a concrete one-match
table. -/
theorem C1_aggregation_formula_witness :
    teamCategoryMetrics [rowC1] "A" "g" =
      { team := "A"
        attempts := round2 (sumColumn Row.total_attempts_team1 (specMatchRows [rowC1] "A" "g")
          + sumColumn Row.total_attempts_team2 (specMatchRows [rowC1] "A" "g"))
        on_target := some (round2 (100 *
          (sumColumn Row.on_target_attempts_team1 (specMatchRows [rowC1] "A" "g")
            + sumColumn Row.on_target_attempts_team2 (specMatchRows [rowC1] "A" "g")) /
          (sumColumn Row.total_attempts_team1 (specMatchRows [rowC1] "A" "g")
            + sumColumn Row.total_attempts_team2 (specMatchRows [rowC1] "A" "g"))))
        goals := round2 (sumColumn Row.number_of_goals_team1 (specMatchRows [rowC1] "A" "g")
          + sumColumn Row.number_of_goals_team2 (specMatchRows [rowC1] "A" "g"))
        assists := round2 (sumColumn Row.assists_team1 (specMatchRows [rowC1] "A" "g")
          + sumColumn Row.assists_team2 (specMatchRows [rowC1] "A" "g")) } :=
  C1_aggregation_formula [rowC1] "A" "g" (by decide)
    (by norm_num [specMatchRows, matchesTeamCategory, sumColumn, rowC1, mkRow])

/-- **C1** counterexample: on a single match with 1 on-target attempt out
of 3, the produced percentage is 33.33, not the exact 100 × (1+0)/(3+0) =
100/3 the claim states. -/
theorem C1_counterexample :
    (teamCategoryMetrics [rowC1] "A" "g").on_target = some (3333/100) ∧
    ((3333:ℚ)/100) ≠ 100 * ((1:ℚ) + 0) / ((3:ℚ) + 0) := by
  constructor
  · simp [teamCategoryMetrics, categoryData, teamData, attemptsSum, onTargetSum,
      sumColumn, rowC1, mkRow]
    norm_num [round2, roundHalfEven]
  · norm_num

/-- **C3** (confirmed): when no row of the table has the given category and
involves the given team, the record is all-zero (with `on_target_pct = 0`,
lines 46-47). -/
theorem C3_empty_selection (df : List Row) (team category : String)
    (h : ∀ r ∈ df, ¬ matchesTeamCategory team category r) :
    teamCategoryMetrics df team category =
      { team := team, attempts := 0, on_target := some 0, goals := 0, assists := 0 } := by
  have hnil : categoryData df team category = [] := by
    rw [categoryData_eq_specMatchRows]
    unfold specMatchRows
    apply List.filter_eq_nil_iff.mpr
    intro r hr
    simpa using h r hr
  unfold teamCategoryMetrics
  rw [hnil]
  rfl

/-- **C3** witness: team "C" plays in no row of the concrete table. -/
theorem C3_empty_selection_witness :
    teamCategoryMetrics [rowC1] "C" "g" =
      { team := "C", attempts := 0, on_target := some 0, goals := 0, assists := 0 } :=
  C3_empty_selection [rowC1] "C" "g" (by decide)

/-- **C9** (confirmed): the per-(team, category) metrics record is invariant
under any permutation of the table's rows — in particular under the sort by
parsed date of lines 13-14. -/
theorem C9_order_independence (df1 df2 : List Row) (h : df1.Perm df2)
    (team category : String) :
    teamCategoryMetrics df1 team category = teamCategoryMetrics df2 team category := by
  have hcd : (categoryData df1 team category).Perm (categoryData df2 team category) := by
    unfold categoryData teamData
    exact (h.filter _).filter _
  have he : (categoryData df1 team category).isEmpty
      = (categoryData df2 team category).isEmpty := by
    rw [Bool.eq_iff_iff, List.isEmpty_iff, List.isEmpty_iff]
    constructor
    · intro hh
      exact ((hh ▸ hcd).symm).eq_nil
    · intro hh
      exact (hh ▸ hcd).eq_nil
  have e1 : attemptsSum df1 team category = attemptsSum df2 team category := by
    unfold attemptsSum
    rw [sumColumn_perm _ hcd, sumColumn_perm _ hcd]
  have e2 : onTargetSum df1 team category = onTargetSum df2 team category := by
    unfold onTargetSum
    rw [sumColumn_perm _ hcd, sumColumn_perm _ hcd]
  have e3 : goalsSum df1 team category = goalsSum df2 team category := by
    unfold goalsSum
    rw [sumColumn_perm _ hcd, sumColumn_perm _ hcd]
  have e4 : assistsSum df1 team category = assistsSum df2 team category := by
    unfold assistsSum
    rw [sumColumn_perm _ hcd, sumColumn_perm _ hcd]
  unfold teamCategoryMetrics
  rw [he, e1, e2, e3, e4]

def rowC9a : Row := mkRow "A" "B" "g" 5 3 2 1 1 0 1 1

def rowC9b : Row := mkRow "A" "C" "g" 4 2 2 2 2 2 0 1

/-- **C9** witness: swapping two concrete rows leaves the record unchanged. -/
theorem C9_order_independence_witness :
    teamCategoryMetrics [rowC9a, rowC9b] "A" "g"
      = teamCategoryMetrics [rowC9b, rowC9a] "A" "g" :=
  C9_order_independence _ _ (List.Perm.swap rowC9b rowC9a []) "A" "g"
/-- Lines 46-51: the division of lines 50-51 is performed exactly when the
selected rows are nonempty; its denominator is `attemptsSum`. -/
def performsDivision (df : List Row) (team category : String) : Bool :=
  !(categoryData df team category).isEmpty

/-- A match recorded with zero attempts on both sides: the guard of line 46
does not prevent the division of lines 50-51 from having a zero
denominator. -/
def rowZero : Row := mkRow "A" "B" "g" 0 0 0 0 0 0 0 0

/-- **C2** (corrected): the guard of line 46 only ensures a division is
performed on a nonempty row selection; the denominator is positive provided
every row carries a positive total attempts count — not for every input, as
the claim states. -/
theorem C2_division_guard (df : List Row) (team category : String) :
    (performsDivision df team category = true ↔ categoryData df team category ≠ []) ∧
    ((∀ r ∈ df, 0 < r.total_attempts_team1 + r.total_attempts_team2) →
      performsDivision df team category = true →
      0 < attemptsSum df team category) := by
  constructor
  · unfold performsDivision
    simp [List.isEmpty_iff]
  · intro hpos hdiv
    have hne : categoryData df team category ≠ [] := by
      unfold performsDivision at hdiv
      simpa [List.isEmpty_iff] using hdiv
    have hsplit : attemptsSum df team category
        = sumColumn (fun r => r.total_attempts_team1 + r.total_attempts_team2)
            (categoryData df team category) := by
      unfold attemptsSum sumColumn
      rw [sum_map_add_distrib]
    rw [hsplit]
    apply sumColumn_pos _ _ hne
    intro r hr
    exact hpos r (mem_of_mem_categoryData hr)

/-- **C2** counterexample: a nonempty selection whose attempts sum to zero
performs the division with a zero denominator. -/
theorem C2_counterexample :
    performsDivision [rowZero] "A" "g" = true ∧ attemptsSum [rowZero] "A" "g" = 0 := by
  constructor
  · rfl
  · simp [attemptsSum, categoryData, teamData, sumColumn, rowZero, mkRow]

/-- **C2** witness: on a table whose rows all have positive attempts, the
performed division has a positive denominator. -/
theorem C2_division_guard_witness : 0 < attemptsSum [rowC9a] "A" "g" := by
  apply (C2_division_guard [rowC9a] "A" "g").2
  · intro r hr
    simp only [List.mem_singleton] at hr
    subst hr
    norm_num [rowC9a, mkRow]
  · rfl

/-- The per-row sanity bounds the claim assumes: on-target attempts lie
between 0 and total attempts, and all statistics are non-negative. -/
def rowStatsOk (r : Row) : Prop :=
  0 ≤ r.on_target_attempts_team1 ∧ r.on_target_attempts_team1 ≤ r.total_attempts_team1 ∧
  0 ≤ r.on_target_attempts_team2 ∧ r.on_target_attempts_team2 ≤ r.total_attempts_team2 ∧
  0 ≤ r.number_of_goals_team1 ∧ 0 ≤ r.number_of_goals_team2 ∧
  0 ≤ r.assists_team1 ∧ 0 ≤ r.assists_team2

/-- **C8** (corrected): under the per-row bounds, every produced attempts,
goals and assists value is non-negative, and every *finite* on-target
percentage lies in [0, 100]; a selection summing to zero attempts yields a
non-finite percentage instead (see the counterexample). -/
theorem C8_bounds (df : List Row) (team category : String)
    (h : ∀ r ∈ df, rowStatsOk r) :
    0 ≤ (teamCategoryMetrics df team category).attempts ∧
    0 ≤ (teamCategoryMetrics df team category).goals ∧
    0 ≤ (teamCategoryMetrics df team category).assists ∧
    ∀ q, (teamCategoryMetrics df team category).on_target = some q → 0 ≤ q ∧ q ≤ 100 := by
  have hmem : ∀ r ∈ categoryData df team category, rowStatsOk r :=
    fun r hr => h r (mem_of_mem_categoryData hr)
  by_cases hemp : (categoryData df team category).isEmpty = true
  · simp only [teamCategoryMetrics, hemp, if_true]
    refine ⟨le_refl 0, le_refl 0, le_refl 0, ?_⟩
    intro q hq
    rw [Option.some.injEq] at hq
    subst hq
    norm_num
  · have hattnn : 0 ≤ attemptsSum df team category := by
      unfold attemptsSum
      apply add_nonneg
      · exact sumColumn_nonneg _ _ (fun r hr => le_trans (hmem r hr).1 (hmem r hr).2.1)
      · exact sumColumn_nonneg _ _ (fun r hr => le_trans (hmem r hr).2.2.1 (hmem r hr).2.2.2.1)
    have hgoalsnn : 0 ≤ goalsSum df team category := by
      unfold goalsSum
      exact add_nonneg
        (sumColumn_nonneg _ _ (fun r hr => (hmem r hr).2.2.2.2.1))
        (sumColumn_nonneg _ _ (fun r hr => (hmem r hr).2.2.2.2.2.1))
    have hastnn : 0 ≤ assistsSum df team category := by
      unfold assistsSum
      exact add_nonneg
        (sumColumn_nonneg _ _ (fun r hr => (hmem r hr).2.2.2.2.2.2.1))
        (sumColumn_nonneg _ _ (fun r hr => (hmem r hr).2.2.2.2.2.2.2))
    have hontnn : 0 ≤ onTargetSum df team category := by
      unfold onTargetSum
      exact add_nonneg
        (sumColumn_nonneg _ _ (fun r hr => (hmem r hr).1))
        (sumColumn_nonneg _ _ (fun r hr => (hmem r hr).2.2.1))
    have hle : onTargetSum df team category ≤ attemptsSum df team category := by
      unfold onTargetSum attemptsSum
      exact add_le_add
        (sumColumn_le _ _ _ (fun r hr => (hmem r hr).2.1))
        (sumColumn_le _ _ _ (fun r hr => (hmem r hr).2.2.2.1))
    simp only [teamCategoryMetrics, hemp, Bool.false_eq_true, if_false]
    refine ⟨round2_nonneg _ hattnn, round2_nonneg _ hgoalsnn, round2_nonneg _ hastnn, ?_⟩
    intro q hq
    by_cases hz : attemptsSum df team category = 0
    · rw [if_pos hz] at hq
      exact absurd hq (by simp)
    · rw [if_neg hz, Option.some.injEq] at hq
      subst hq
      have hA : 0 < attemptsSum df team category := lt_of_le_of_ne hattnn (Ne.symm hz)
      have hratio0 : 0 ≤ onTargetSum df team category / attemptsSum df team category :=
        div_nonneg hontnn hattnn
      have hratio1 : onTargetSum df team category / attemptsSum df team category ≤ 1 :=
        (div_le_one hA).mpr hle
      constructor
      · exact round2_nonneg _ (by nlinarith)
      · exact round2_le_hundred _ (by nlinarith)

/-- **C8** counterexample: the all-zero match satisfies every per-row bound,
yet its on-target percentage is the non-finite result of 0/0, not a value
in [0, 100]. -/
theorem C8_counterexample :
    rowStatsOk rowZero ∧ (teamCategoryMetrics [rowZero] "A" "g").on_target = none := by
  constructor
  · simp [rowStatsOk, rowZero, mkRow]
  · simp [teamCategoryMetrics, categoryData, teamData, attemptsSum, sumColumn, rowZero, mkRow]

/-- **C8** witness: the amended bounds applied to a concrete table. -/
theorem C8_bounds_witness :
    0 ≤ (teamCategoryMetrics [rowC9a] "A" "g").attempts ∧
    0 ≤ (teamCategoryMetrics [rowC9a] "A" "g").goals ∧
    0 ≤ (teamCategoryMetrics [rowC9a] "A" "g").assists := by
  have hb := C8_bounds [rowC9a] "A" "g" (by
    intro r hr
    simp only [List.mem_singleton] at hr
    subst hr
    norm_num [rowStatsOk, rowC9a, mkRow])
  exact ⟨hb.1, hb.2.1, hb.2.2.1⟩
/-- **C4** (confirmed): after renaming, validation errors exactly when some
required column is absent, the error lists exactly the absent required
columns, presence of all 16 yields no error. -/
theorem C4_validation (cols : List String) :
    ((∃ e, validate (cols.map renameColumn) = Except.error e) ↔
      ∃ c ∈ required_columns, c ∉ cols.map renameColumn) ∧
    (∀ e, validate (cols.map renameColumn) = Except.error e →
      ∀ c, c ∈ e ↔ (c ∈ required_columns ∧ c ∉ cols.map renameColumn)) ∧
    ((∀ c ∈ required_columns, c ∈ cols.map renameColumn) →
      validate (cols.map renameColumn) = Except.ok ()) ∧
    required_columns.length = 16 := by
  have hmiss : ∀ c, c ∈ missingColumns (cols.map renameColumn)
      ↔ (c ∈ required_columns ∧ c ∉ cols.map renameColumn) := by
    intro c
    unfold missingColumns
    rw [List.mem_filter]
    simp
  have hempty : (missingColumns (cols.map renameColumn)).isEmpty = true
      ↔ ∀ c ∈ required_columns, c ∈ cols.map renameColumn := by
    rw [List.isEmpty_iff]
    constructor
    · intro hnil c hc
      by_contra hnc
      have hmem : c ∈ missingColumns (cols.map renameColumn) := (hmiss c).mpr ⟨hc, hnc⟩
      rw [hnil] at hmem
      simp at hmem
    · intro hall
      unfold missingColumns
      apply List.filter_eq_nil_iff.mpr
      intro c hc
      simp [hall c hc]
  refine ⟨?_, ?_, ?_, rfl⟩
  · constructor
    · rintro ⟨e, he⟩
      unfold validate at he
      by_cases hb : (missingColumns (cols.map renameColumn)).isEmpty = true
      · rw [if_pos hb] at he
        simp at he
      · rw [if_neg hb] at he
        have hnall : ¬ ∀ c ∈ required_columns, c ∈ cols.map renameColumn :=
          fun hall => hb (hempty.mpr hall)
        push_neg at hnall
        exact hnall
    · rintro ⟨c, hc1, hc2⟩
      unfold validate
      have hb : ¬ (missingColumns (cols.map renameColumn)).isEmpty = true :=
        fun hb => hc2 (hempty.mp hb c hc1)
      rw [if_neg hb]
      exact ⟨_, rfl⟩
  · intro e he
    unfold validate at he
    by_cases hb : (missingColumns (cols.map renameColumn)).isEmpty = true
    · rw [if_pos hb] at he
      simp at he
    · rw [if_neg hb] at he
      injection he with hee
      subst hee
      intro c
      exact hmiss c
  · intro hall
    unfold validate
    rw [if_pos (hempty.mpr hall)]

/-- **C4** witness: with all 16 required columns present, validation
succeeds. -/
theorem C4_validation_witness :
    validate (required_columns.map renameColumn) = Except.ok () :=
  (C4_validation required_columns).2.2.1 (by decide)

/-- **C5** (confirmed): when a required column is missing, the pipeline's
result is exactly the validation error — the possession transform and the
aggregation never run, and the rows do not influence the outcome. -/
theorem C5_stage_order (t : RawTable)
    (h : missingColumns (t.columns.map renameColumn) ≠ []) :
    pipeline t = Except.error (PipelineError.missingColumns
        (missingColumns (t.columns.map renameColumn))) ∧
    ∀ rows2 : List RawRow,
      pipeline { columns := t.columns, rows := rows2 } = pipeline t := by
  have hb : ¬ (missingColumns (t.columns.map renameColumn)).isEmpty = true := by
    simpa [List.isEmpty_iff] using h
  have hval : validate (t.columns.map renameColumn)
      = Except.error (missingColumns (t.columns.map renameColumn)) := by
    unfold validate
    rw [if_neg hb]
  constructor
  · unfold pipeline
    rw [hval]
  · intro rows2
    unfold pipeline
    rw [hval]

/-- **C5** witness: an empty table misses every column; its pipeline result
is the validation error. -/
theorem C5_stage_order_witness :
    pipeline { columns := [], rows := [] } = Except.error (PipelineError.missingColumns
        (missingColumns (([] : List String).map renameColumn))) :=
  (C5_stage_order { columns := [], rows := [] } (by decide)).1

/-- **C6** (confirmed): per-team statistics partition over categories — the
sum of the unrounded per-category sums equals the sum over all the team's
rows, and each such row matches exactly one entry of the category list. -/
theorem C6_category_partition (df : List Row) (team : String) :
    ((categories df).map (fun c => attemptsSum df team c)).sum
        = sumColumn Row.total_attempts_team1 (teamData df team)
          + sumColumn Row.total_attempts_team2 (teamData df team) ∧
    ((categories df).map (fun c => goalsSum df team c)).sum
        = sumColumn Row.number_of_goals_team1 (teamData df team)
          + sumColumn Row.number_of_goals_team2 (teamData df team) ∧
    ((categories df).map (fun c => assistsSum df team c)).sum
        = sumColumn Row.assists_team1 (teamData df team)
          + sumColumn Row.assists_team2 (teamData df team) ∧
    ∀ r ∈ teamData df team,
      ((categories df).filter (fun c => r.category == c)).length = 1 := by
  have hnd := nodup_categories df
  have hcov : ∀ r ∈ teamData df team, r.category ∈ categories df :=
    fun r hr => category_mem_categories (mem_of_mem_teamData hr)
  have key : ∀ f : Row → ℚ,
      ((categories df).map (fun c => sumColumn f (categoryData df team c))).sum
        = sumColumn f (teamData df team) :=
    fun f => sum_map_filter_partition f (teamData df team) (categories df) hnd hcov
  refine ⟨?_, ?_, ?_, ?_⟩
  · unfold attemptsSum
    rw [sum_map_add_distrib (fun c => sumColumn Row.total_attempts_team1 (categoryData df team c))
      (fun c => sumColumn Row.total_attempts_team2 (categoryData df team c)) (categories df),
      key Row.total_attempts_team1, key Row.total_attempts_team2]
  · unfold goalsSum
    rw [sum_map_add_distrib (fun c => sumColumn Row.number_of_goals_team1 (categoryData df team c))
      (fun c => sumColumn Row.number_of_goals_team2 (categoryData df team c)) (categories df),
      key Row.number_of_goals_team1, key Row.number_of_goals_team2]
  · unfold assistsSum
    rw [sum_map_add_distrib (fun c => sumColumn Row.assists_team1 (categoryData df team c))
      (fun c => sumColumn Row.assists_team2 (categoryData df team c)) (categories df),
      key Row.assists_team1, key Row.assists_team2]
  · intro r hr
    exact length_filter_beq_of_nodup r.category (categories df) hnd (hcov r hr)

/-- **C6** witness: the partition statement at a one-row table. -/
theorem C6_category_partition_witness :
    ((categories [rowC9a]).filter (fun c => rowC9a.category == c)).length = 1 :=
  (C6_category_partition [rowC9a] "A").2.2.2 rowC9a
    (List.mem_filter.mpr ⟨List.mem_singleton.mpr rfl, by decide⟩)

theorem sum_map_le_length_mul {α : Type} (l : List α) (f : α → ℕ) (b : ℕ)
    (h : ∀ x ∈ l, f x ≤ b) : (l.map f).sum ≤ l.length * b := by
  induction l with
  | nil => simp
  | cons a t ih =>
      simp only [List.map_cons, List.sum_cons, List.length_cons]
      have ht := ih (fun x hx => h x (by simp [hx]))
      have ha := h a (by simp)
      calc f a + (t.map f).sum ≤ b + t.length * b := Nat.add_le_add ha ht
        _ = (t.length + 1) * b := by ring

/-- **C7** (confirmed): the loop of lines 41-55 does work bounded by
categories × teams × (2 × rows) row visits, and produces exactly one record
list per category with one record per team; totality of `metrics` is
termination. -/
theorem C7_work_bound (df : List Row) :
    metricsWork df ≤ (categories df).length * ((teams df).length * (2 * df.length)) ∧
    (metrics df).length = (categories df).length ∧
    ∀ p ∈ metrics df, p.2.length = (teams df).length := by
  refine ⟨?_, ?_, ?_⟩
  · unfold metricsWork
    have inner : ((teams df).map (fun team => df.length + (teamData df team).length)).sum
        ≤ (teams df).length * (2 * df.length) := by
      apply sum_map_le_length_mul
      intro team _
      have hf : (teamData df team).length ≤ df.length := List.length_filter_le _ _
      omega
    exact sum_map_le_length_mul _ _ _ (fun c _ => inner)
  · simp [metrics]
  · intro p hp
    unfold metrics at hp
    obtain ⟨c, hc, rfl⟩ := List.mem_map.mp hp
    simp [metricsFor]

/-- **C7** witness: the work bound at a concrete table. -/
theorem C7_work_bound_witness :
    metricsWork [rowC9a]
      ≤ (categories [rowC9a]).length * ((teams [rowC9a]).length * (2 * [rowC9a].length)) :=
  (C7_work_bound [rowC9a]).1
theorem transformRow_ok_iff (r : RawRow) :
    (∃ r2, transformRow r = Except.ok r2) ↔
      ((parseFloat (rstripPct r.possession_team1)).isSome
        ∧ (parseFloat (rstripPct r.possession_team2)).isSome
        ∧ (parseFloat (rstripPct r.possession_in_contest)).isSome) := by
  unfold transformRow parsePossession
  cases h1 : parseFloat (rstripPct r.possession_team1) <;>
    cases h2 : parseFloat (rstripPct r.possession_team2) <;>
      cases h3 : parseFloat (rstripPct r.possession_in_contest) <;>
        simp [h1, h2, h3]

theorem transformTable_ok_iff (rows : List RawRow) :
    (∃ rows2, transformTable rows = Except.ok rows2) ↔
      ∀ r ∈ rows, ∃ r2, transformRow r = Except.ok r2 := by
  induction rows with
  | nil => simp [transformTable]
  | cons r rs ih =>
      constructor
      · rintro ⟨rows2, h⟩
        unfold transformTable at h
        cases htr : transformRow r with
        | error e =>
            rw [htr] at h
            simp at h
        | ok r2 =>
            rw [htr] at h
            cases htt : transformTable rs with
            | error e =>
                rw [htt] at h
                simp at h
            | ok rs2 =>
                intro s hs
                rcases List.mem_cons.mp hs with rfl | hs2
                · exact ⟨r2, htr⟩
                · exact (ih.mp ⟨rs2, htt⟩) s hs2
      · intro hall
        obtain ⟨r2, htr⟩ := hall r (by simp)
        obtain ⟨rs2, htt⟩ := ih.mpr (fun s hs => hall s (by simp [hs]))
        refine ⟨r2 :: rs2, ?_⟩
        unfold transformTable
        rw [htr, htt]

/-- **C10** (confirmed): the possession preprocessing strips trailing '%'
signs and parses the remainder as a number ("42%" ↦ 42, not 0.42), succeeds
exactly when every possession cell parses after stripping, and modifies no
other column. -/
theorem C10_possession_transform :
    (parsePossession "42%" = Except.ok 42) ∧
    (∀ rows : List RawRow,
      (∃ rows2, transformTable rows = Except.ok rows2) ↔
        ∀ r ∈ rows, (parseFloat (rstripPct r.possession_team1)).isSome
          ∧ (parseFloat (rstripPct r.possession_team2)).isSome
          ∧ (parseFloat (rstripPct r.possession_in_contest)).isSome) ∧
    (∀ (r : RawRow) (r2 : Row), transformRow r = Except.ok r2 →
      (r2.team1 = r.team1 ∧ r2.team2 = r.team2 ∧ r2.date = r.date ∧ r2.hour = r.hour ∧
       r2.category = r.category ∧
       r2.number_of_goals_team1 = r.number_of_goals_team1 ∧
       r2.number_of_goals_team2 = r.number_of_goals_team2 ∧
       r2.total_attempts_team1 = r.total_attempts_team1 ∧
       r2.total_attempts_team2 = r.total_attempts_team2 ∧
       r2.on_target_attempts_team1 = r.on_target_attempts_team1 ∧
       r2.on_target_attempts_team2 = r.on_target_attempts_team2 ∧
       r2.assists_team1 = r.assists_team1 ∧
       r2.assists_team2 = r.assists_team2) ∧
      (parseFloat (rstripPct r.possession_team1) = some r2.possession_team1 ∧
       parseFloat (rstripPct r.possession_team2) = some r2.possession_team2 ∧
       parseFloat (rstripPct r.possession_in_contest) = some r2.possession_in_contest)) := by
  refine ⟨rfl, ?_, ?_⟩
  · intro rows
    rw [transformTable_ok_iff]
    constructor
    · intro hall r hr
      exact (transformRow_ok_iff r).mp (hall r hr)
    · intro hall r hr
      exact (transformRow_ok_iff r).mpr (hall r hr)
  · intro r r2 h
    unfold transformRow parsePossession at h
    cases h1 : parseFloat (rstripPct r.possession_team1) with
    | none => rw [h1] at h; simp at h
    | some p1 =>
        rw [h1] at h
        cases h2 : parseFloat (rstripPct r.possession_team2) with
        | none => rw [h2] at h; simp at h
        | some p2 =>
            rw [h2] at h
            cases h3 : parseFloat (rstripPct r.possession_in_contest) with
            | none => rw [h3] at h; simp at h
            | some p3 =>
                rw [h3] at h
                rw [Except.ok.injEq] at h
                subst h
                simp

/-- A raw row whose possession cells all parse. -/
def rawRowGood : RawRow :=
  { team1 := "A", team2 := "B", date := "d", hour := "h", category := "g",
    possession_team1 := "42%", possession_team2 := "58%", possession_in_contest := "0%",
    number_of_goals_team1 := 2, number_of_goals_team2 := 1,
    total_attempts_team1 := 3, total_attempts_team2 := 0,
    on_target_attempts_team1 := 1, on_target_attempts_team2 := 0,
    assists_team1 := 1, assists_team2 := 0 }

/-- **C10** witness: a concrete table of parseable possession cells
transforms successfully. -/
theorem C10_possession_transform_witness :
    ∃ rows2, transformTable [rawRowGood] = Except.ok rows2 :=
  (C10_possession_transform.2.1 [rawRowGood]).mpr (by
    intro r hr
    simp only [List.mem_singleton] at hr
    subst hr
    exact ⟨rfl, rfl, rfl⟩)
